import Mathlib

set_option maxHeartbeats 1000000

/-
Shallow embedding of src/onedrive_glycoshield.py.

The script is a linear pipeline over a remote storage API: fetch a bearer
token, find or create the base folder and a subfolder, upload each local
file through a chunked upload session, invite the recipients, and print
exactly one JSON record to stdout. Remote responses are modelled as
explicit inputs; the local filesystem is an association list from path to
byte size; exceptions are an explicit sum that distinguishes SystemExit,
which the except-Exception guard at the bottom of the script does not
catch, from the Exception subclasses that it does catch.
-/

/-- The exception classes the script can raise. In Python, SystemExit
derives from BaseException and is not caught by an except-Exception
handler; FileNotFoundError, HTTPError and plain Exception are caught. -/
inductive Exn where
  | exception (msg : String)
  | fileNotFound (msg : String)
  | httpError (msg : String)
  | systemExit (msg : String)
deriving DecidableEq, Repr

/-- Whether the except-Exception guard at the bottom of the script catches
this exception: everything except SystemExit. -/
def Exn.caughtByExceptException : Exn → Bool
  | .systemExit _ => false
  | _ => true

/-- The message the handler would print as the error field (str(e)). -/
def Exn.message : Exn → String
  | .exception m => m
  | .fileNotFound m => m
  | .httpError m => m
  | .systemExit m => m

/-- An HTTP response as far as the script inspects it. -/
structure HttpResp where
  ok : Bool
  status : Nat
  text : String
deriving DecidableEq, Repr

/-- Module constant BASE_FOLDER_NAME. -/
def BASE_FOLDER_NAME : String := "GlycoShield"

/-- Module constant DEFAULT_RECIPIENT_EMAILS. -/
def DEFAULT_RECIPIENT_EMAILS : List String := ["simbiosyslab.neu@gmail.com"]

/-- The body written into the synthesized default file test_upload.txt. -/
def dummyContent : String := "This is a test upload file."

/-- get_access_token: POST to the token endpoint; a non-ok response raises
SystemExit, otherwise the access token from the JSON body is returned. -/
def get_access_token (tokenResp : HttpResp) (token : String) :
    Except Exn String :=
  if tokenResp.ok then Except.ok token
  else Except.error (Exn.systemExit
    ("Token request failed: " ++ toString tokenResp.status))

/-- A drive item as far as get_or_create_folder inspects it: its name, its
identifier, and whether the folder facet is present on it. -/
structure Item where
  name : String
  id : String
  isFolder : Bool
deriving DecidableEq, Repr

/-- The remote drive: the children listing as (parent identifier, item)
pairs in listing order, plus a counter minting fresh item identifiers. -/
structure DriveState where
  children : List (String × Item)
  nextId : Nat
deriving DecidableEq, Repr

/-- Case folding of the Python str.lower call, as a structural map over
the characters of the string. -/
def lowerStr (s : String) : String := String.mk (s.data.map Char.toLower)

/-- The children listing returned for the find request: the children of
the given parent that pass the server-side name filter flt (the request
sends a filter of name eq folder_name; its exact matching rule is kept
as a parameter). -/
def DriveState.listChildren (st : DriveState) (parent_id : String)
    (flt : String → String → Bool) (folder_name : String) : List Item :=
  (st.children.filterMap fun pr =>
    if pr.1 == parent_id then some pr.2 else none).filter
    (fun it => flt it.name folder_name)

/-- The scan inside get_or_create_folder: the first listed item whose name
matches case-insensitively and which carries the folder facet. -/
def findFolder (items : List Item) (folder_name : String) : Option String :=
  match items with
  | [] => none
  | item :: rest =>
      if lowerStr item.name == lowerStr folder_name && item.isFolder then
        some item.id
      else findFolder rest folder_name

/-- The identifier minted by a successful folder create request. -/
def freshId (st : DriveState) : String := "folder-" ++ toString st.nextId

/-- The drive after a successful create request: the new item is appended
to the children of the parent. -/
def DriveState.addChild (st : DriveState) (parent_id : String) (it : Item) :
    DriveState :=
  { children := st.children ++ [(parent_id, it)], nextId := st.nextId + 1 }

/-- get_or_create_folder: list the filtered children of the parent, scan
for a case-insensitive folder match and return its identifier, otherwise
issue the create request (createOk models its HTTP outcome; a failed
create raises SystemExit) and return the fresh identifier. -/
def get_or_create_folder (flt : String → String → Bool) (createOk : Bool)
    (st : DriveState) (parent_id folder_name : String) :
    Except Exn (String × DriveState) :=
  match findFolder (st.listChildren parent_id flt folder_name) folder_name with
  | some i => Except.ok (i, st)
  | none =>
      if createOk then
        let nid := freshId st
        Except.ok (nid,
          st.addChild parent_id { name := folder_name, id := nid, isFolder := true })
      else Except.error (Exn.systemExit "Failed to create folder")

/-- One permission record of the invite response, as far as the script
inspects it: the value of get applied to link and then webUrl, which is
absent when either key is missing. -/
structure Permission where
  webUrl : Option String
deriving DecidableEq, Repr

/-- The invite response: HTTP outcome plus the permission records under
the value key of the JSON body. -/
structure InviteResp where
  ok : Bool
  status : Nat
  text : String
  permissions : List Permission
deriving DecidableEq, Repr

/-- The placeholder returned when no webUrl is found in the response. -/
def noLinkMsg (item_id : String) : String :=
  "Access granted to item " ++ item_id ++ " (no direct link returned)"

/-- Python falsiness of the extracted webUrl: absent or the empty string. -/
def falsyUrl : Option String → Bool
  | none => true
  | some u => u == ""

/-- grant_folder_access: POST the invite; a non-ok response raises; an
empty permissions list raises; a first record without a truthy webUrl
yields the placeholder string; otherwise the webUrl is returned. -/
def grant_folder_access (resp : InviteResp) (item_id : String) :
    Except Exn String :=
  if resp.ok then
    match resp.permissions with
    | [] => Except.error (Exn.exception
        "Invite sent, but no permission data was returned.")
    | p :: _ =>
        match p.webUrl with
        | some u => if u == "" then Except.ok (noLinkMsg item_id) else Except.ok u
        | none => Except.ok (noLinkMsg item_id)
  else Except.error (Exn.exception
    ("Failed to grant access: " ++ toString resp.status))

/-- Size of each upload window in bytes: 5 MiB, from upload_file. -/
def chunk_size : Nat := 5 * 1024 * 1024

/-- One range-addressed chunk write: the byte offset of the window start,
the window length, and the total file size carried in the Content-Range
header of the request. -/
structure Chunk where
  start : Nat
  len : Nat
  total : Nat
deriving DecidableEq, Repr

/-- The window sequence produced by the cursor loop of upload_file, with
an explicit fuel bound on the number of iterations: while the cursor s is
below the file size n, read min chunk_size (n - s) bytes and advance the
cursor by that length. The fuel is only a bound; n - s fuel suffices. -/
def uploadChunksGo (fuel s n : Nat) : List Chunk :=
  match fuel with
  | 0 => []
  | fuel + 1 =>
      if s < n then
        { start := s, len := min chunk_size (n - s), total := n } ::
          uploadChunksGo fuel (s + min chunk_size (n - s)) n
      else []

/-- The window sequence of the cursor loop started at offset s on a file
of n bytes. -/
def uploadChunksFrom (s n : Nat) : List Chunk := uploadChunksGo (n - s) s n

/-- The full window sequence for a file of n bytes, cursor starting at 0
as in upload_file. -/
def uploadChunks (n : Nat) : List Chunk := uploadChunksFrom 0 n

/-- The statuses accepted for a chunk write in upload_file: 200, 201, 202. -/
def acceptedStatus (code : Nat) : Bool :=
  code == 200 || code == 201 || code == 202

/-- The chunk PUT loop of upload_file with fuel, where resps gives the
response status of the chunk write with the given index. Returns the
chunks actually sent and the outcome: a status outside the accepted set
raises and stops the loop with the rejected chunk already sent. -/
def uploadLoopGo (resps : Nat → Nat) (fuel s n i : Nat) :
    List Chunk × Except Exn Unit :=
  match fuel with
  | 0 => ([], Except.ok ())
  | fuel + 1 =>
      if s < n then
        if acceptedStatus (resps i) then
          ({ start := s, len := min chunk_size (n - s), total := n } ::
              (uploadLoopGo resps fuel (s + min chunk_size (n - s)) n (i + 1)).1,
            (uploadLoopGo resps fuel (s + min chunk_size (n - s)) n (i + 1)).2)
        else
          ([{ start := s, len := min chunk_size (n - s), total := n }],
            Except.error (Exn.exception
              ("Chunk upload failed: " ++ toString (resps i))))
      else ([], Except.ok ())

/-- The chunk PUT loop of upload_file on a file of n bytes, cursor at s,
next chunk index i. -/
def uploadLoop (resps : Nat → Nat) (n s i : Nat) :
    List Chunk × Except Exn Unit :=
  uploadLoopGo resps (n - s) s n i

/-- The sum of the window lengths of a chunk list. -/
def sumLens (l : List Chunk) : Nat := (l.map Chunk.len).sum

/-- The chunk list is read sequentially: each window starts exactly at the
running cursor, beginning at s. -/
def contiguousFrom : Nat → List Chunk → Prop
  | _, [] => True
  | s, c :: rest => c.start = s ∧ contiguousFrom (s + c.len) rest

/-- The network requests upload_file can issue for one file. -/
inductive NetAction where
  | createSession (parent_id file_name : String)
  | putChunk (c : Chunk)
deriving DecidableEq, Repr

/-- The final path component, as os.path.basename computes it for posix
paths, as a structural scan over the characters. -/
def basenameAux : List Char → List Char → List Char
  | [], acc => acc.reverse
  | c :: rest, acc =>
      if c == '/' then basenameAux rest [] else basenameAux rest (c :: acc)

/-- os.path.basename for posix paths. -/
def basename (p : String) : String := String.mk (basenameAux p.data [])

/-- upload_file: the existence check on the local path fires first and
raises FileNotFoundError on a miss before any request is issued; then the
upload session is created (a non-ok response raises HTTPError) and the
chunk loop runs. Returns the network actions performed for this file and
the outcome. The filesystem fs maps each existing path to its byte size. -/
def upload_file (fs : List (String × Nat)) (sessionResp : HttpResp)
    (resps : Nat → Nat) (parent_id : String) (local_file_path : String) :
    List NetAction × Except Exn Unit :=
  match fs.lookup local_file_path with
  | none =>
      ([], Except.error (Exn.fileNotFound
        ("The specified file does not exist: " ++ local_file_path)))
  | some filesize =>
      if sessionResp.ok then
        ((NetAction.createSession parent_id (basename local_file_path)) ::
            (uploadLoop resps filesize 0 0).1.map NetAction.putChunk,
          (uploadLoop resps filesize 0 0).2)
      else
        ([NetAction.createSession parent_id (basename local_file_path)],
          Except.error (Exn.httpError
            ("Upload session request failed: " ++ toString sessionResp.status)))

/-- The parsed command-line arguments and the whole remote world of one
invocation: the local filesystem, the token endpoint response, the drive
state and the name filter of the listing endpoint, the create outcome,
and the per-file session and chunk responses, plus the invite response. -/
structure Env where
  subfolder : String
  files_to_upload : List String
  new_emails : List String
  fs0 : List (String × Nat)
  tokenResp : HttpResp
  token : String
  drive : DriveState
  flt : String → String → Bool
  createOk : Bool
  sessionResp : String → HttpResp
  chunkResps : String → Nat → Nat
  inviteResp : InviteResp

/-- The filesystem after the default-file convenience in main: when the
file list is exactly the default and test_upload.txt does not exist, the
placeholder file is written before any upload. -/
def fsAfterDefault (files : List String) (fs0 : List (String × Nat)) :
    List (String × Nat) :=
  if files == ["test_upload.txt"] && (List.lookup "test_upload.txt" fs0).isNone
  then ("test_upload.txt", dummyContent.length) :: fs0
  else fs0

/-- The upload loop of main over the file list: each file is uploaded in
order; the first raised exception aborts the remaining files; on full
success the list of uploaded paths is returned in order. -/
def uploadAll (fs : List (String × Nat)) (sessionResp : String → HttpResp)
    (chunkResps : String → Nat → Nat) (parent_id : String) :
    List String → Except Exn (List String)
  | [] => Except.ok []
  | p :: rest =>
      match (upload_file fs (sessionResp p) (chunkResps p) parent_id p).2 with
      | Except.error e => Except.error e
      | Except.ok _ =>
          match uploadAll fs sessionResp chunkResps parent_id rest with
          | Except.error e => Except.error e
          | Except.ok l => Except.ok (p :: l)

/-- The values main has in hand when it reaches the invite call. -/
structure PreInvite where
  sub_folder_name : String
  recipient_emails : List String
  subfolder_id : String
  uploaded : List String
deriving DecidableEq, Repr

/-- The stages of main before the invite call: token, base folder,
subfolder, default-file convenience, and the per-file uploads. -/
def preInvite (env : Env) : Except Exn PreInvite :=
  match get_access_token env.tokenResp env.token with
  | Except.error e => Except.error e
  | Except.ok _ =>
      match get_or_create_folder env.flt env.createOk env.drive "root"
          BASE_FOLDER_NAME with
      | Except.error e => Except.error e
      | Except.ok (gid, st1) =>
          match get_or_create_folder env.flt env.createOk st1 gid
              env.subfolder with
          | Except.error e => Except.error e
          | Except.ok (sid, _) =>
              match uploadAll (fsAfterDefault env.files_to_upload env.fs0)
                  env.sessionResp env.chunkResps sid env.files_to_upload with
              | Except.error e => Except.error e
              | Except.ok uploaded =>
                  Except.ok { sub_folder_name := env.subfolder,
                              recipient_emails :=
                                DEFAULT_RECIPIENT_EMAILS ++ env.new_emails,
                              subfolder_id := sid, uploaded := uploaded }

/-- The success record main returns, mirroring the output dictionary. -/
structure Output where
  base_folder : String
  sub_folder : String
  sub_folder_id : String
  files_uploaded : List String
  shared_with : List String
  invite_link : String
deriving DecidableEq, Repr

/-- main: the pipeline up to the invite, then grant_folder_access, then
the success dictionary. -/
def main_fn (env : Env) : Except Exn Output :=
  match preInvite env with
  | Except.error e => Except.error e
  | Except.ok pre =>
      match grant_folder_access env.inviteResp pre.subfolder_id with
      | Except.error e => Except.error e
      | Except.ok link =>
          Except.ok { base_folder := BASE_FOLDER_NAME,
                      sub_folder := pre.sub_folder_name,
                      sub_folder_id := pre.subfolder_id,
                      files_uploaded := pre.uploaded,
                      shared_with := pre.recipient_emails,
                      invite_link := link }

/-- A JSON record printed to stdout. -/
inductive OutRecord where
  | success (o : Output)
  | failure (error : String)
deriving DecidableEq, Repr

/-- The status key of a printed record. -/
def OutRecord.statusKey : OutRecord → String
  | .success _ => "success"
  | .failure _ => "failure"

/-- The top-level guard of the script: on ok it prints the success JSON
and exits 0; an Exception is caught and printed as the failure JSON with
exit 1; SystemExit escapes the except-Exception handler, so nothing is
printed to stdout and the interpreter exits with code 1 (its argument is
a string, printed to stderr). Returns the JSON records printed to stdout
and the process exit code. -/
def runScript (env : Env) : List OutRecord × Nat :=
  match main_fn env with
  | Except.ok o => ([OutRecord.success o], 0)
  | Except.error e =>
      if e.caughtByExceptException then ([OutRecord.failure e.message], 1)
      else ([], 1)

/-- An all-green response. -/
def okResp : HttpResp := { ok := true, status := 200, text := "" }

/-- A failed response. -/
def badResp : HttpResp := { ok := false, status := 400, text := "" }

/-- An empty drive. -/
def emptyDrive : DriveState := { children := [], nextId := 0 }

/-- Exact-name server filter used in concrete instantiations. -/
def eqFilter : String → String → Bool := fun a b => a == b

/-- A fully green default invocation used by concrete instantiations. -/
def baseEnv : Env :=
  { subfolder := "public"
    files_to_upload := ["test_upload.txt"]
    new_emails := []
    fs0 := []
    tokenResp := okResp
    token := "tok"
    drive := emptyDrive
    flt := eqFilter
    createOk := true
    sessionResp := fun _ => okResp
    chunkResps := fun _ _ => 200
    inviteResp := { ok := true, status := 200, text := ""
                    permissions := [{ webUrl := some "https://contoso.example/link" }] } }

/-- The default invocation with a failing token endpoint. -/
def envTokenFail : Env := { baseEnv with tokenResp := badResp }

/-- An invocation uploading one path that does not exist locally. -/
def env5 : Env := { baseEnv with files_to_upload := ["data.bin"] }

/-- The default invocation whose invite response has no permissions. -/
def env6 : Env :=
  { baseEnv with
      inviteResp := { ok := true, status := 200, text := "", permissions := [] } }

/-- The default invocation whose first permission record has no webUrl. -/
def env7 : Env :=
  { baseEnv with
      inviteResp := { ok := true, status := 200, text := ""
                      permissions := [{ webUrl := none }] } }

/-- Chunk statuses accepting the first write and rejecting the second. -/
def c8resps : Nat → Nat := fun i => if i == 0 then 202 else 500

/-- The drive after the base folder has been created in the empty drive. -/
def st1w : DriveState :=
  { children := [("root", { name := "GlycoShield", id := "folder-0", isFolder := true })]
    nextId := 1 }

/-- The drive after base folder and subfolder have been created. -/
def st2w : DriveState :=
  { children := st1w.children ++
      [("folder-0", { name := "public", id := "folder-1", isFolder := true })]
    nextId := 2 }

/-- The chunk window size is positive. -/
theorem chunk_size_pos : 0 < chunk_size := by decide

/-- The chunk window size as a numeral. -/
theorem chunk_size_eq : chunk_size = 5242880 := by norm_num [chunk_size]

/-- The fuel of the window loop is irrelevant once it covers the
remaining byte count. -/
theorem uploadChunksGo_congr (f1 : Nat) : ∀ (f2 s n : Nat),
    n - s ≤ f1 → n - s ≤ f2 → uploadChunksGo f1 s n = uploadChunksGo f2 s n := by
  induction f1 with
  | zero =>
      intro f2 s n h1 h2
      have hns : ¬ s < n := by omega
      cases f2 with
      | zero => rfl
      | succ g => simp [uploadChunksGo, hns]
  | succ f ih =>
      intro f2 s n h1 h2
      by_cases hsn : s < n
      · cases f2 with
        | zero => omega
        | succ g =>
            have hcs : 0 < chunk_size := chunk_size_pos
            have hlen : 0 < min chunk_size (n - s) := by omega
            simp only [uploadChunksGo, if_pos hsn]
            rw [ih g (s + min chunk_size (n - s)) n (by omega) (by omega)]
      · cases f2 with
        | zero => simp [uploadChunksGo, hsn]
        | succ g => simp [uploadChunksGo, hsn]

/-- Unfolding of the window loop when the cursor is below the file size. -/
theorem uploadChunksFrom_step (s n : Nat) (h : s < n) :
    uploadChunksFrom s n =
      { start := s, len := min chunk_size (n - s), total := n } ::
        uploadChunksFrom (s + min chunk_size (n - s)) n := by
  have hcs : 0 < chunk_size := chunk_size_pos
  have hlen : 0 < min chunk_size (n - s) := by omega
  unfold uploadChunksFrom
  rw [uploadChunksGo_congr (n - s) (n - s - 1 + 1) s n (by omega) (by omega)]
  simp only [uploadChunksGo, if_pos h]
  rw [uploadChunksGo_congr (n - s - 1)
    (n - (s + min chunk_size (n - s))) (s + min chunk_size (n - s)) n
    (by omega) (by omega)]

/-- The window loop stops when the cursor has reached the file size. -/
theorem uploadChunksFrom_stop (s n : Nat) (h : ¬ s < n) :
    uploadChunksFrom s n = [] := by
  have h0 : n - s = 0 := by omega
  unfold uploadChunksFrom
  rw [h0]
  rfl

/-- The fuel of the PUT loop is irrelevant once it covers the remaining
byte count. -/
theorem uploadLoopGo_congr (resps : Nat → Nat) (f1 : Nat) : ∀ (f2 s n i : Nat),
    n - s ≤ f1 → n - s ≤ f2 →
    uploadLoopGo resps f1 s n i = uploadLoopGo resps f2 s n i := by
  induction f1 with
  | zero =>
      intro f2 s n i h1 h2
      have hns : ¬ s < n := by omega
      cases f2 with
      | zero => rfl
      | succ g => simp [uploadLoopGo, hns]
  | succ f ih =>
      intro f2 s n i h1 h2
      by_cases hsn : s < n
      · cases f2 with
        | zero => omega
        | succ g =>
            have hcs : 0 < chunk_size := chunk_size_pos
            have hlen : 0 < min chunk_size (n - s) := by omega
            simp only [uploadLoopGo, if_pos hsn]
            rw [ih g (s + min chunk_size (n - s)) n (i + 1) (by omega) (by omega)]
      · cases f2 with
        | zero => simp [uploadLoopGo, hsn]
        | succ g => simp [uploadLoopGo, hsn]

/-- The PUT loop stops when the cursor has reached the file size. -/
theorem uploadLoop_stop (resps : Nat → Nat) (n s i : Nat) (h : ¬ s < n) :
    uploadLoop resps n s i = ([], Except.ok ()) := by
  have h0 : n - s = 0 := by omega
  unfold uploadLoop
  rw [h0]
  rfl

/-- Unfolding of the PUT loop on an accepted status: the chunk is sent and
the loop continues after the window. -/
theorem uploadLoop_step_acc (resps : Nat → Nat) (n s i : Nat) (h : s < n)
    (ha : acceptedStatus (resps i) = true) :
    uploadLoop resps n s i =
      ({ start := s, len := min chunk_size (n - s), total := n } ::
          (uploadLoop resps n (s + min chunk_size (n - s)) (i + 1)).1,
        (uploadLoop resps n (s + min chunk_size (n - s)) (i + 1)).2) := by
  have hcs : 0 < chunk_size := chunk_size_pos
  have hlen : 0 < min chunk_size (n - s) := by omega
  unfold uploadLoop
  rw [uploadLoopGo_congr resps (n - s) (n - s - 1 + 1) s n i (by omega) (by omega)]
  simp only [uploadLoopGo, if_pos h, ha, if_true]
  rw [uploadLoopGo_congr resps (n - s - 1)
    (n - (s + min chunk_size (n - s))) (s + min chunk_size (n - s)) n (i + 1)
    (by omega) (by omega)]

/-- Unfolding of the PUT loop on a rejected status: the chunk was sent,
the loop raises and stops. -/
theorem uploadLoop_step_rej (resps : Nat → Nat) (n s i : Nat) (h : s < n)
    (ha : acceptedStatus (resps i) = false) :
    uploadLoop resps n s i =
      ([{ start := s, len := min chunk_size (n - s), total := n }],
        Except.error (Exn.exception
          ("Chunk upload failed: " ++ toString (resps i)))) := by
  unfold uploadLoop
  rw [uploadLoopGo_congr resps (n - s) (n - s - 1 + 1) s n i (by omega)
    (by omega)]
  simp only [uploadLoopGo, if_pos h, ha]
  simp

/-- Every window of the loop carries the total file size, is nonempty, and
is at most one chunk long. -/
theorem chunksFrom_mem : ∀ (d s n : Nat), n - s ≤ d →
    ∀ c ∈ uploadChunksFrom s n,
      c.total = n ∧ 0 < c.len ∧ c.len ≤ chunk_size := by
  intro d
  induction d with
  | zero =>
      intro s n h c hc
      rw [uploadChunksFrom_stop s n (by omega)] at hc
      simp at hc
  | succ d ih =>
      intro s n h c hc
      by_cases hsn : s < n
      · have hcs : 0 < chunk_size := chunk_size_pos
        rw [uploadChunksFrom_step s n hsn] at hc
        rcases List.mem_cons.mp hc with hc | hc
        · subst hc
          exact ⟨rfl, by simp; omega, by simp⟩
        · exact ih (s + min chunk_size (n - s)) n (by omega) c hc
      · rw [uploadChunksFrom_stop s n hsn] at hc
        simp at hc

/-- The window lengths of the loop sum to the remaining byte count. -/
theorem chunksFrom_sum : ∀ (d s n : Nat), n - s ≤ d →
    sumLens (uploadChunksFrom s n) = n - s := by
  intro d
  induction d with
  | zero =>
      intro s n h
      rw [uploadChunksFrom_stop s n (by omega)]
      simp [sumLens]
      omega
  | succ d ih =>
      intro s n h
      by_cases hsn : s < n
      · have hcs : 0 < chunk_size := chunk_size_pos
        rw [uploadChunksFrom_step s n hsn]
        simp only [sumLens, List.map_cons, List.sum_cons]
        have := ih (s + min chunk_size (n - s)) n (by omega)
        simp only [sumLens] at this
        rw [this]
        omega
      · rw [uploadChunksFrom_stop s n hsn]
        simp [sumLens]
        omega

/-- The windows of the loop are read sequentially from the cursor. -/
theorem chunksFrom_contig : ∀ (d s n : Nat), n - s ≤ d →
    contiguousFrom s (uploadChunksFrom s n) := by
  intro d
  induction d with
  | zero =>
      intro s n h
      rw [uploadChunksFrom_stop s n (by omega)]
      trivial
  | succ d ih =>
      intro s n h
      by_cases hsn : s < n
      · have hcs : 0 < chunk_size := chunk_size_pos
        rw [uploadChunksFrom_step s n hsn]
        exact ⟨rfl, ih (s + min chunk_size (n - s)) n (by omega)⟩
      · rw [uploadChunksFrom_stop s n hsn]
        trivial

/-- Every window except possibly the final one is a full chunk. -/
theorem chunksFrom_dropLast : ∀ (d s n : Nat), n - s ≤ d →
    ∀ c ∈ (uploadChunksFrom s n).dropLast, c.len = chunk_size := by
  intro d
  induction d with
  | zero =>
      intro s n h c hc
      rw [uploadChunksFrom_stop s n (by omega)] at hc
      simp at hc
  | succ d ih =>
      intro s n h c hc
      by_cases hsn : s < n
      · have hcs : 0 < chunk_size := chunk_size_pos
        rw [uploadChunksFrom_step s n hsn] at hc
        rcases htl : uploadChunksFrom (s + min chunk_size (n - s)) n with _ | ⟨c2, tl2⟩
        · rw [htl] at hc
          simp at hc
        · have hlt : s + min chunk_size (n - s) < n := by
            by_contra hge
            rw [uploadChunksFrom_stop _ n hge] at htl
            exact List.noConfusion htl
          have hfull : min chunk_size (n - s) = chunk_size := by omega
          rw [htl] at hc
          rw [List.dropLast_cons_of_ne_nil (List.cons_ne_nil c2 tl2)] at hc
          rcases List.mem_cons.mp hc with hc | hc
          · subst hc
            exact hfull
          · have := ih (s + min chunk_size (n - s)) n (by omega) c
            rw [htl] at this
            exact this hc
      · rw [uploadChunksFrom_stop s n hsn] at hc
        simp at hc

/-- The loop produces exactly the ceiling of remaining bytes over the
chunk size many windows. -/
theorem chunksFrom_length : ∀ (d s n : Nat), n - s ≤ d →
    (uploadChunksFrom s n).length = (n - s + chunk_size - 1) / chunk_size := by
  intro d
  induction d with
  | zero =>
      intro s n h
      rw [uploadChunksFrom_stop s n (by omega), chunk_size_eq]
      simp
      omega
  | succ d ih =>
      intro s n h
      by_cases hsn : s < n
      · have hcs : 0 < chunk_size := chunk_size_pos
        rw [uploadChunksFrom_step s n hsn]
        simp only [List.length_cons]
        rw [ih (s + min chunk_size (n - s)) n (by omega)]
        rw [chunk_size_eq] at *
        omega
      · rw [uploadChunksFrom_stop s n hsn, chunk_size_eq]
        simp
        omega

/-- Sequential windows with positive lengths all start at or after the
cursor. -/
theorem contig_mono : ∀ (l : List Chunk) (s : Nat), contiguousFrom s l →
    (∀ c ∈ l, 0 < c.len) → ∀ b ∈ l, s ≤ b.start := by
  intro l
  induction l with
  | nil =>
      intro s _ _ b hb
      simp at hb
  | cons c tl ih =>
      intro s hc hp b hb
      obtain ⟨hcs, hct⟩ := hc
      rcases List.mem_cons.mp hb with hbc | hb
      · subst hbc
        omega
      · have hclen : 0 < c.len := hp c (List.mem_cons_self c tl)
        have := ih (s + c.len) hct (fun x hx => hp x (List.mem_cons_of_mem c hx)) b hb
        omega

/-- Sequential windows with positive lengths are pairwise non-overlapping
and strictly increasing in their start offsets. -/
theorem contig_pairwise : ∀ (l : List Chunk) (s : Nat), contiguousFrom s l →
    (∀ c ∈ l, 0 < c.len) →
    l.Pairwise (fun a b => a.start + a.len ≤ b.start ∧ a.start < b.start) := by
  intro l
  induction l with
  | nil =>
      intro s _ _
      exact List.Pairwise.nil
  | cons c tl ih =>
      intro s hc hp
      obtain ⟨hcs, hct⟩ := hc
      constructor
      · intro b hb
        have hclen : 0 < c.len := hp c (List.mem_cons_self c tl)
        have hsb : s + c.len ≤ b.start :=
          contig_mono tl (s + c.len) hct
            (fun x hx => hp x (List.mem_cons_of_mem c hx)) b hb
        constructor <;> omega
      · exact ih (s + c.len) hct (fun x hx => hp x (List.mem_cons_of_mem c hx))

/-- Behavior of the PUT loop relative to the planned window sequence: when
every status up to the window count is accepted the loop sends exactly the
planned windows and succeeds, and when the first rejected status sits at
relative index k within the planned windows the loop sends exactly the
first k plus one windows and raises the chunk failure. -/
theorem loop_behavior (resps : Nat → Nat) : ∀ (d s n i : Nat), n - s ≤ d →
    (((∀ j, j < (uploadChunksFrom s n).length →
        acceptedStatus (resps (i + j)) = true) →
      uploadLoop resps n s i = (uploadChunksFrom s n, Except.ok ())) ∧
    (∀ k, k < (uploadChunksFrom s n).length →
      (∀ j, j < k → acceptedStatus (resps (i + j)) = true) →
      acceptedStatus (resps (i + k)) = false →
      uploadLoop resps n s i =
        ((uploadChunksFrom s n).take (k + 1),
          Except.error (Exn.exception
            ("Chunk upload failed: " ++ toString (resps (i + k))))))) := by
  intro d
  induction d with
  | zero =>
      intro s n i h
      have hns : ¬ s < n := by omega
      constructor
      · intro _
        rw [uploadLoop_stop resps n s i hns, uploadChunksFrom_stop s n hns]
      · intro k hk _ _
        rw [uploadChunksFrom_stop s n hns] at hk
        simp at hk
  | succ d ih =>
      intro s n i h
      by_cases hsn : s < n
      · have hcs : 0 < chunk_size := chunk_size_pos
        have hlen : 0 < min chunk_size (n - s) := by omega
        have hrec := ih (s + min chunk_size (n - s)) n (i + 1) (by omega)
        constructor
        · intro hacc
          have ha0 : acceptedStatus (resps i) = true := by
            have := hacc 0 (by rw [uploadChunksFrom_step s n hsn]; simp)
            simpa using this
          rw [uploadLoop_step_acc resps n s i hsn ha0]
          have htail : uploadLoop resps n (s + min chunk_size (n - s)) (i + 1) =
              (uploadChunksFrom (s + min chunk_size (n - s)) n, Except.ok ()) := by
            apply hrec.1
            intro j hj
            have := hacc (j + 1) (by rw [uploadChunksFrom_step s n hsn]; simp; omega)
            have heq : i + (j + 1) = i + 1 + j := by omega
            rwa [heq] at this
          rw [htail, uploadChunksFrom_step s n hsn]
        · intro k hk hbefore hrej
          cases k with
          | zero =>
              have ha0 : acceptedStatus (resps i) = false := by simpa using hrej
              rw [uploadLoop_step_rej resps n s i hsn ha0,
                uploadChunksFrom_step s n hsn]
              simp
          | succ k =>
              have ha0 : acceptedStatus (resps i) = true := by
                have := hbefore 0 (by omega)
                simpa using this
              rw [uploadLoop_step_acc resps n s i hsn ha0]
              have htail : uploadLoop resps n (s + min chunk_size (n - s)) (i + 1) =
                  ((uploadChunksFrom (s + min chunk_size (n - s)) n).take (k + 1),
                    Except.error (Exn.exception
                      ("Chunk upload failed: " ++ toString (resps (i + 1 + k))))) := by
                apply hrec.2 k
                · rw [uploadChunksFrom_step s n hsn] at hk
                  simpa using hk
                · intro j hj
                  have := hbefore (j + 1) (by omega)
                  have heq : i + (j + 1) = i + 1 + j := by omega
                  rwa [heq] at this
                · have heq : i + (k + 1) = i + 1 + k := by omega
                  rwa [heq] at hrej
              rw [htail, uploadChunksFrom_step s n hsn]
              have heq : i + (k + 1) = i + 1 + k := by omega
              rw [heq]
              simp
      · have hns := hsn
        constructor
        · intro _
          rw [uploadLoop_stop resps n s i hns, uploadChunksFrom_stop s n hns]
        · intro k hk _ _
          rw [uploadChunksFrom_stop s n hns] at hk
          simp at hk

/-- The windows actually sent by the PUT loop are always an initial
segment of the planned window sequence: no window is repeated, reordered
or retried. -/
theorem loop_take_planned (resps : Nat → Nat) : ∀ (d s n i : Nat), n - s ≤ d →
    ∃ m, (uploadLoop resps n s i).1 = (uploadChunksFrom s n).take m := by
  intro d
  induction d with
  | zero =>
      intro s n i h
      exact ⟨0, by rw [uploadLoop_stop resps n s i (by omega)]; simp⟩
  | succ d ih =>
      intro s n i h
      by_cases hsn : s < n
      · have hcs : 0 < chunk_size := chunk_size_pos
        have hlen : 0 < min chunk_size (n - s) := by omega
        by_cases ha : acceptedStatus (resps i) = true
        · obtain ⟨m, hm⟩ := ih (s + min chunk_size (n - s)) n (i + 1) (by omega)
          refine ⟨m + 1, ?_⟩
          rw [uploadLoop_step_acc resps n s i hsn ha,
            uploadChunksFrom_step s n hsn]
          simp [hm]
        · refine ⟨1, ?_⟩
          rw [uploadLoop_step_rej resps n s i hsn (by simpa using ha),
            uploadChunksFrom_step s n hsn]
          simp
      · exact ⟨0, by rw [uploadLoop_stop resps n s i hsn]; simp⟩

/-- C2 counterexample: the claim says a zero-length file yields exactly
one zero-length window, but the cursor loop of upload_file sends no
window at all for a zero-length file. -/
theorem C2_counterexample :
    uploadChunks 0 = [] ∧ ¬ (uploadChunks 0).length = 1 := by decide

/-- C2 (amended): for a zero-length local file the chunked upload sends
no window at all: the loop guard fails immediately, zero range-addressed
writes are issued, and the loop ends without raising. -/
theorem C2_empty_file_sends_no_window (resps : Nat → Nat) :
    uploadChunks 0 = [] ∧ uploadLoop resps 0 0 0 = ([], Except.ok ()) :=
  ⟨rfl, rfl⟩

/-- C3: upload_file partitions the file into windows of exactly 5 MiB
except a possibly shorter final window, read sequentially from offset 0;
the ranges are contiguous, pairwise non-overlapping and strictly
increasing, each carries the total file size, and the window lengths sum
to the file size exactly once. -/
theorem C3_chunk_partition (filesize : Nat) :
    (∀ c ∈ uploadChunks filesize, c.total = filesize) ∧
    (∀ c ∈ (uploadChunks filesize).dropLast, c.len = chunk_size) ∧
    (∀ c ∈ uploadChunks filesize, 0 < c.len ∧ c.len ≤ chunk_size) ∧
    contiguousFrom 0 (uploadChunks filesize) ∧
    List.Pairwise (fun a b => a.start + a.len ≤ b.start ∧ a.start < b.start)
      (uploadChunks filesize) ∧
    sumLens (uploadChunks filesize) = filesize := by
  have hmem := chunksFrom_mem filesize 0 filesize (by omega)
  have hcontig := chunksFrom_contig filesize 0 filesize (by omega)
  refine ⟨fun c hc => (hmem c hc).1,
    chunksFrom_dropLast filesize 0 filesize (by omega),
    fun c hc => (hmem c hc).2,
    hcontig,
    contig_pairwise _ 0 hcontig (fun c hc => (hmem c hc).2.1),
    ?_⟩
  have := chunksFrom_sum filesize 0 filesize (by omega)
  simpa using this

/-- C8: a chunk write acknowledged with 200, 201 or 202 lets the transfer
continue, any other status is fatal for the remaining chunks with no
chunk-level retry: when every planned status is accepted the loop sends
exactly the planned windows and succeeds; when the first rejected status
sits at index k the loop sends exactly the first k + 1 windows and raises;
and whatever the statuses, the windows sent are an initial segment of the
planned sequence, so no window is ever retried. -/
theorem C8_chunk_status_policy (resps : Nat → Nat) (filesize : Nat) :
    ((∀ j, j < (uploadChunks filesize).length →
        acceptedStatus (resps j) = true) →
      uploadLoop resps filesize 0 0 = (uploadChunks filesize, Except.ok ())) ∧
    (∀ k, k < (uploadChunks filesize).length →
      (∀ j, j < k → acceptedStatus (resps j) = true) →
      acceptedStatus (resps k) = false →
      uploadLoop resps filesize 0 0 =
        ((uploadChunks filesize).take (k + 1),
          Except.error (Exn.exception
            ("Chunk upload failed: " ++ toString (resps k))))) ∧
    (∃ m, (uploadLoop resps filesize 0 0).1 = (uploadChunks filesize).take m) := by
  have H := loop_behavior resps filesize 0 filesize 0 (by omega)
  simp only [Nat.zero_add] at H
  refine ⟨H.1, H.2, ?_⟩
  exact loop_take_planned resps filesize 0 filesize 0 (by omega)

/-- Witness for C8 at a concrete eleven MiB file whose second chunk write
is rejected: exactly the first two planned windows are sent and the loop
raises the chunk failure. -/
theorem C8_chunk_status_policy_witness :
    uploadLoop c8resps 11534336 0 0 =
      ((uploadChunks 11534336).take 2,
        Except.error (Exn.exception
          ("Chunk upload failed: " ++ toString (c8resps 1)))) :=
  (C8_chunk_status_policy c8resps 11534336).2.1 1 (by decide) (by decide)
    (by decide)

/-- C10: for a file of fixed size the chunk loop terminates after exactly
the ceiling of size over 5 MiB many chunk writes when every write is
accepted, and in particular performs zero writes for a zero-length file. -/
theorem C10_loop_terminates_with_ceil_chunks (resps : Nat → Nat)
    (filesize : Nat) (hacc : ∀ i, acceptedStatus (resps i) = true) :
    uploadLoop resps filesize 0 0 = (uploadChunks filesize, Except.ok ()) ∧
    (uploadLoop resps filesize 0 0).1.length =
      (filesize + chunk_size - 1) / chunk_size ∧
    (uploadLoop resps 0 0 0).1 = [] := by
  have H := (loop_behavior resps filesize 0 filesize 0 (by omega)).1
    (fun j _ => hacc (0 + j))
  refine ⟨H, ?_, rfl⟩
  rw [H]
  have := chunksFrom_length filesize 0 filesize (by omega)
  simpa using this

/-- Witness for C10 at a concrete 27-byte file with all statuses 200. -/
theorem C10_loop_terminates_with_ceil_chunks_witness :
    uploadLoop (fun _ => 200) 27 0 0 = (uploadChunks 27, Except.ok ()) ∧
    (uploadLoop (fun _ => 200) 27 0 0).1.length =
      (27 + chunk_size - 1) / chunk_size ∧
    (uploadLoop (fun _ => 200) 0 0 0).1 = [] :=
  C10_loop_terminates_with_ceil_chunks (fun _ => 200) 27 (fun _ => rfl)

/-- If the scan misses on a first listing segment it continues over the
rest of the listing. -/
theorem findFolder_append (l1 l2 : List Item) (nm : String)
    (h : findFolder l1 nm = none) :
    findFolder (l1 ++ l2) nm = findFolder l2 nm := by
  induction l1 with
  | nil => simp
  | cons it rest ih =>
      simp only [findFolder] at h
      by_cases hit : (lowerStr it.name == lowerStr nm && it.isFolder) = true
      · rw [if_pos hit] at h
        exact absurd h (by simp)
      · rw [if_neg hit] at h
        rw [List.cons_append]
        simp only [findFolder]
        rw [if_neg hit]
        exact ih h

/-- The listing of a parent after a create under that parent is the old
listing followed by the new item when it passes the server filter. -/
theorem listChildren_addChild (st : DriveState) (p : String)
    (flt : String → String → Bool) (nm : String) (it : Item) :
    (st.addChild p it).listChildren p flt nm =
      st.listChildren p flt nm ++ (if flt it.name nm then [it] else []) := by
  simp only [DriveState.listChildren, DriveState.addChild,
    List.filterMap_append, List.filter_append]
  simp [List.filter_cons]

/-- C4: find-or-create is idempotent against a fixed parent listing with
no external mutation between the calls: a scan hit returns that item and
leaves the drive unchanged, creation happens only on a miss, and a second
resolution of the same name against the same parent returns the same
identifier and the same drive (the created name is assumed to pass its
own server-side filter). -/
theorem C4_folder_find_or_create_idempotent (flt : String → String → Bool)
    (createOk : Bool) (st : DriveState) (parent_id folder_name : String)
    (hflt : flt folder_name folder_name = true) :
    (∀ i, findFolder (st.listChildren parent_id flt folder_name) folder_name =
        some i →
      get_or_create_folder flt createOk st parent_id folder_name =
        Except.ok (i, st)) ∧
    (∀ i st', get_or_create_folder flt createOk st parent_id folder_name =
        Except.ok (i, st') →
      get_or_create_folder flt createOk st' parent_id folder_name =
        Except.ok (i, st')) := by
  constructor
  · intro i hi
    simp [get_or_create_folder, hi]
  · intro i st' h
    rcases hfind : findFolder (st.listChildren parent_id flt folder_name)
        folder_name with _ | j
    · simp only [get_or_create_folder, hfind] at h
      cases hco : createOk
      · rw [hco] at h
        simp at h
      · rw [hco] at h
        simp only [if_true] at h
        have hid : freshId st = i := congrArg Prod.fst (Except.ok.inj h)
        have hst : st.addChild parent_id
            { name := folder_name, id := freshId st, isFolder := true } = st' :=
          congrArg Prod.snd (Except.ok.inj h)
        subst hid
        subst hst
        have hfind2 : findFolder
            ((st.addChild parent_id
              { name := folder_name, id := freshId st, isFolder := true
              }).listChildren parent_id flt folder_name) folder_name =
            some (freshId st) := by
          rw [listChildren_addChild st parent_id flt folder_name
            { name := folder_name, id := freshId st, isFolder := true }]
          rw [if_pos hflt]
          rw [findFolder_append _ _ _ hfind]
          simp [findFolder]
        simp [get_or_create_folder, hfind2]
    · simp only [get_or_create_folder, hfind] at h
      have hij : j = i := congrArg Prod.fst (Except.ok.inj h)
      have hst : st = st' := congrArg Prod.snd (Except.ok.inj h)
      subst hij
      subst hst
      simp [get_or_create_folder, hfind]

/-- Witness for C4: creating the folder Public in the empty drive and
resolving it again returns the identifier minted by the create and leaves
the drive unchanged. -/
theorem C4_folder_find_or_create_idempotent_witness :
    get_or_create_folder eqFilter true
      (emptyDrive.addChild "root"
        { name := "Public", id := freshId emptyDrive, isFolder := true })
      "root" "Public" =
    Except.ok (freshId emptyDrive,
      emptyDrive.addChild "root"
        { name := "Public", id := freshId emptyDrive, isFolder := true }) :=
  (C4_folder_find_or_create_idempotent eqFilter true emptyDrive "root" "Public"
    (by decide)).2 (freshId emptyDrive) _ rfl

/-- A file no larger than one window is sent as a single accepted chunk. -/
theorem small_file_loop (resps : Nat → Nat) (n : Nat) (h1 : 0 < n)
    (h2 : n ≤ chunk_size) (ha : acceptedStatus (resps 0) = true) :
    uploadLoop resps n 0 0 =
      ([{ start := 0, len := n, total := n }], Except.ok ()) := by
  have hmin : min chunk_size (n - 0) = n := by
    rw [Nat.sub_zero]
    exact Nat.min_eq_right h2
  rw [uploadLoop_step_acc resps n 0 0 h1 ha, hmin,
    uploadLoop_stop resps n (0 + n) 1 (by omega)]

/-- upload_file on an existing file of at most one window, with a good
session response and an accepted first chunk status: the session is
created, the single chunk is sent, and the upload succeeds. -/
theorem upload_file_small_ok (fs : List (String × Nat)) (sess : HttpResp)
    (resps : Nat → Nat) (pid path : String) (n : Nat)
    (hfs : fs.lookup path = some n) (h1 : 0 < n) (h2 : n ≤ chunk_size)
    (hsess : sess.ok = true) (ha : acceptedStatus (resps 0) = true) :
    upload_file fs sess resps pid path =
      ([NetAction.createSession pid (basename path),
        NetAction.putChunk { start := 0, len := n, total := n }],
        Except.ok ()) := by
  simp only [upload_file, hfs, hsess, if_true]
  rw [small_file_loop resps n h1 h2 ha]
  simp

/-- When every file of a first segment uploads cleanly and the next file
raises, the upload loop of main raises that exception. -/
theorem uploadAll_fails_at (fs : List (String × Nat))
    (sResp : String → HttpResp) (cResp : String → Nat → Nat) (pid : String) :
    ∀ (files₁ : List String) (path : String) (files₂ : List String) (e : Exn),
    (∀ f ∈ files₁, (upload_file fs (sResp f) (cResp f) pid f).2 =
      Except.ok ()) →
    (upload_file fs (sResp path) (cResp path) pid path).2 = Except.error e →
    uploadAll fs sResp cResp pid (files₁ ++ path :: files₂) =
      Except.error e := by
  intro files₁
  induction files₁ with
  | nil =>
      intro path files₂ e _ hfail
      simp [uploadAll, hfail]
  | cons f rest ih =>
      intro path files₂ e hprev hfail
      rw [List.cons_append]
      simp only [uploadAll]
      rw [hprev f (List.mem_cons_self f rest)]
      rw [ih path files₂ e (fun x hx => hprev x (List.mem_cons_of_mem f hx))
        hfail]

/-- An empty permissions list on a good invite response raises. -/
theorem grant_empty_perms (resp : InviteResp) (item_id : String)
    (hok : resp.ok = true) (hperm : resp.permissions = []) :
    grant_folder_access resp item_id = Except.error (Exn.exception
      "Invite sent, but no permission data was returned.") := by
  simp [grant_folder_access, hok, hperm]

/-- A nonempty permissions list on a good invite response never raises:
some link string is returned. -/
theorem grant_cons_perms (resp : InviteResp) (item_id : String)
    (p : Permission) (rest : List Permission) (hok : resp.ok = true)
    (hperm : resp.permissions = p :: rest) :
    ∃ link, grant_folder_access resp item_id = Except.ok link := by
  rcases hw : p.webUrl with _ | u
  · exact ⟨noLinkMsg item_id, by simp [grant_folder_access, hok, hperm, hw]⟩
  · by_cases hu : u == ""
    · exact ⟨noLinkMsg item_id,
        by simp [grant_folder_access, hok, hperm, hw, hu]⟩
    · exact ⟨u, by simp [grant_folder_access, hok, hperm, hw, hu]⟩

/-- A first permission record without a truthy webUrl yields the
placeholder link. -/
theorem grant_falsy_link (resp : InviteResp) (item_id : String)
    (p : Permission) (rest : List Permission) (hok : resp.ok = true)
    (hperm : resp.permissions = p :: rest) (hf : falsyUrl p.webUrl = true) :
    grant_folder_access resp item_id = Except.ok (noLinkMsg item_id) := by
  rcases hw : p.webUrl with _ | u
  · simp [grant_folder_access, hok, hperm, hw]
  · rw [hw] at hf
    simp only [falsyUrl] at hf
    simp [grant_folder_access, hok, hperm, hw, hf]

/-- A first permission record with a truthy webUrl yields that link. -/
theorem grant_real_link (resp : InviteResp) (item_id : String)
    (p : Permission) (rest : List Permission) (u : String)
    (hok : resp.ok = true) (hperm : resp.permissions = p :: rest)
    (hw : p.webUrl = some u) (hu : ¬ u = "") :
    grant_folder_access resp item_id = Except.ok u := by
  have hu2 : (u == "") = false := beq_eq_false_iff_ne.mpr hu
  simp [grant_folder_access, hok, hperm, hw, hu2]

/-- C1 is a code bug: a token-request failure raises SystemExit, which the
except-Exception guard at the bottom of the script does not catch, so the
process exits with code 1 without printing any JSON record to stdout —
contradicting both the claim and the module docstring, which promise a
single failure record on stdout for every failure. -/
theorem C1_token_failure_bypasses_handler (env : Env)
    (h : env.tokenResp.ok = false) : runScript env = ([], 1) := by
  simp [runScript, main_fn, preInvite, get_access_token, h,
    Exn.caughtByExceptException]

/-- Witness for C1 at a concrete invocation whose token endpoint answers
with status 400: stdout carries zero JSON records. -/
theorem C1_token_failure_bypasses_handler_witness :
    runScript envTokenFail = ([], 1) :=
  C1_token_failure_bypasses_handler envTokenFail rfl

/-- C5 counterexample: the claim quantifies over any non-existent input
file path, but when the file list is exactly the default and the default
placeholder test_upload.txt is absent from disk, main synthesizes the file
and the process exits with code 0 and a success record carrying no error
field at all. -/
theorem C5_counterexample :
    List.lookup "test_upload.txt" baseEnv.fs0 = none ∧
    baseEnv.files_to_upload = ["test_upload.txt"] ∧
    runScript baseEnv =
      ([OutRecord.success
        { base_folder := "GlycoShield", sub_folder := "public",
          sub_folder_id := "folder-1",
          files_uploaded := ["test_upload.txt"],
          shared_with := ["simbiosyslab.neu@gmail.com"],
          invite_link := "https://contoso.example/link" }], 0) := by decide

/-- C5 (amended): given an input file path that does not exist on disk,
unless the file list is exactly the default list and the path is the
default placeholder test_upload.txt (which main synthesizes instead), and
provided the pipeline reaches the upload of that file (token and folder
stages succeed and the earlier files upload cleanly), the existence check
fires before any network activity for that file, the process exits with
code 1, and the failure output error field contains the literal path. -/
theorem C5_missing_file_aborts (env : Env) (path : String)
    (files₁ files₂ : List String)
    (hsplit : env.files_to_upload = files₁ ++ path :: files₂)
    (hnd : ¬ (env.files_to_upload = ["test_upload.txt"] ∧
      path = "test_upload.txt"))
    (hmissing : List.lookup path env.fs0 = none)
    (htok : env.tokenResp.ok = true)
    (gid sid : String) (st1 st2 : DriveState)
    (hg : get_or_create_folder env.flt env.createOk env.drive "root"
      BASE_FOLDER_NAME = Except.ok (gid, st1))
    (hs : get_or_create_folder env.flt env.createOk st1 gid env.subfolder =
      Except.ok (sid, st2))
    (hprev : ∀ f ∈ files₁,
      (upload_file (fsAfterDefault env.files_to_upload env.fs0)
        (env.sessionResp f) (env.chunkResps f) sid f).2 = Except.ok ()) :
    upload_file (fsAfterDefault env.files_to_upload env.fs0)
        (env.sessionResp path) (env.chunkResps path) sid path =
      ([], Except.error (Exn.fileNotFound
        ("The specified file does not exist: " ++ path))) ∧
    runScript env =
      ([OutRecord.failure ("The specified file does not exist: " ++ path)],
        1) := by
  have hpath_mem : path ∈ env.files_to_upload := by
    rw [hsplit]
    simp
  have hfs' : fsAfterDefault env.files_to_upload env.fs0 = env.fs0 := by
    unfold fsAfterDefault
    by_cases hdef : env.files_to_upload = ["test_upload.txt"]
    · have hpd : path = "test_upload.txt" := by
        rw [hdef] at hpath_mem
        simpa using hpath_mem
      exact absurd ⟨hdef, hpd⟩ hnd
    · have hbeq : (env.files_to_upload == ["test_upload.txt"]) = false :=
        beq_eq_false_iff_ne.mpr hdef
      rw [hbeq]
      simp
  have hmissing2 : List.lookup path
      (fsAfterDefault env.files_to_upload env.fs0) = none := by
    rw [hfs']
    exact hmissing
  have hupl : upload_file (fsAfterDefault env.files_to_upload env.fs0)
      (env.sessionResp path) (env.chunkResps path) sid path =
      ([], Except.error (Exn.fileNotFound
        ("The specified file does not exist: " ++ path))) := by
    simp only [upload_file, hmissing2]
  refine ⟨hupl, ?_⟩
  have huploadAll : ∀ FS, FS = fsAfterDefault env.files_to_upload env.fs0 →
      uploadAll FS env.sessionResp env.chunkResps sid env.files_to_upload =
        Except.error (Exn.fileNotFound
          ("The specified file does not exist: " ++ path)) := by
    intro FS hFS
    rw [hsplit]
    apply uploadAll_fails_at
    · intro f hf
      rw [hFS]
      exact hprev f hf
    · rw [hFS, hupl]
  have hpre : preInvite env = Except.error (Exn.fileNotFound
      ("The specified file does not exist: " ++ path)) := by
    simp [preInvite, get_access_token, htok, hg, hs, huploadAll _ rfl]
  simp [runScript, main_fn, hpre, Exn.caughtByExceptException, Exn.message]

/-- Witness for C5 at a concrete invocation uploading the single missing
path data.bin: no network action is issued for the file, the process exits
1 and the error carries the path. -/
theorem C5_missing_file_aborts_witness :
    upload_file (fsAfterDefault env5.files_to_upload env5.fs0)
        (env5.sessionResp "data.bin") (env5.chunkResps "data.bin")
        "folder-1" "data.bin" =
      ([], Except.error (Exn.fileNotFound
        ("The specified file does not exist: " ++ "data.bin"))) ∧
    runScript env5 =
      ([OutRecord.failure
        ("The specified file does not exist: " ++ "data.bin")], 1) :=
  C5_missing_file_aborts env5 "data.bin" [] [] rfl (by decide) rfl rfl
    "folder-0" "folder-1" st1w st2w rfl rfl
    (fun f hf => absurd hf (by simp))

/-- C6: an invite response with an empty permissions list raises a
descriptive error and, when the pipeline reaches the invite, the process
prints a single failure record (no invite link) and exits with code 1; a
non-empty permissions list on a good response never triggers this error. -/
theorem C6_empty_permissions_hard_failure :
    (∀ (resp : InviteResp) (item_id : String), resp.ok = true →
      resp.permissions = [] →
      grant_folder_access resp item_id = Except.error (Exn.exception
        "Invite sent, but no permission data was returned.")) ∧
    (∀ (resp : InviteResp) (item_id : String) (p : Permission)
        (rest : List Permission), resp.ok = true →
      resp.permissions = p :: rest →
      ∃ link, grant_folder_access resp item_id = Except.ok link) ∧
    (∀ (env : Env) (pre : PreInvite), preInvite env = Except.ok pre →
      env.inviteResp.ok = true → env.inviteResp.permissions = [] →
      runScript env = ([OutRecord.failure
        "Invite sent, but no permission data was returned."], 1)) := by
  refine ⟨grant_empty_perms, grant_cons_perms, ?_⟩
  intro env pre hpre hok hperm
  have hgrant := grant_empty_perms env.inviteResp pre.subfolder_id hok hperm
  have hmain : main_fn env = Except.error (Exn.exception
      "Invite sent, but no permission data was returned.") := by
    simp [main_fn, hpre, hgrant]
  simp [runScript, hmain, Exn.caughtByExceptException, Exn.message]

/-- Witness for C6 at a concrete all-green invocation whose invite
response carries no permissions: one failure record, exit code 1. -/
theorem C6_empty_permissions_hard_failure_witness :
    runScript env6 = ([OutRecord.failure
      "Invite sent, but no permission data was returned."], 1) :=
  C6_empty_permissions_hard_failure.2.2 env6
    { sub_folder_name := "public",
      recipient_emails := DEFAULT_RECIPIENT_EMAILS ++ [],
      subfolder_id := freshId st1w,
      uploaded := ["test_upload.txt"] } rfl rfl rfl

/-- C7: a good invite response whose first permission record lacks a
truthy webUrl still lets the pipeline succeed with exit code 0 and the
placeholder string as the invite link; when a proper link is present the
first permission record link is returned. -/
theorem C7_missing_link_soft_success :
    (∀ (resp : InviteResp) (item_id : String) (p : Permission)
        (rest : List Permission), resp.ok = true →
      resp.permissions = p :: rest → falsyUrl p.webUrl = true →
      grant_folder_access resp item_id = Except.ok (noLinkMsg item_id)) ∧
    (∀ (resp : InviteResp) (item_id : String) (p : Permission)
        (rest : List Permission) (u : String), resp.ok = true →
      resp.permissions = p :: rest → p.webUrl = some u → ¬ u = "" →
      grant_folder_access resp item_id = Except.ok u) ∧
    (∀ (env : Env) (pre : PreInvite), preInvite env = Except.ok pre →
      env.inviteResp.ok = true →
      (∃ p rest, env.inviteResp.permissions = p :: rest ∧
        falsyUrl p.webUrl = true) →
      ∃ o, runScript env = ([OutRecord.success o], 0) ∧
        o.invite_link = noLinkMsg pre.subfolder_id) := by
  refine ⟨grant_falsy_link, grant_real_link, ?_⟩
  intro env pre hpre hok hfalsy
  obtain ⟨p, rest, hperm, hf⟩ := hfalsy
  have hgrant := grant_falsy_link env.inviteResp pre.subfolder_id p rest
    hok hperm hf
  have hmain : main_fn env = Except.ok
      { base_folder := BASE_FOLDER_NAME, sub_folder := pre.sub_folder_name,
        sub_folder_id := pre.subfolder_id, files_uploaded := pre.uploaded,
        shared_with := pre.recipient_emails,
        invite_link := noLinkMsg pre.subfolder_id } := by
    simp [main_fn, hpre, hgrant]
  refine Exists.intro
    { base_folder := BASE_FOLDER_NAME, sub_folder := pre.sub_folder_name,
      sub_folder_id := pre.subfolder_id, files_uploaded := pre.uploaded,
      shared_with := pre.recipient_emails,
      invite_link := noLinkMsg pre.subfolder_id } (And.intro ?_ rfl)
  simp [runScript, hmain]

/-- Witness for C7 at a concrete all-green invocation whose single
permission record has no webUrl: one success record with the placeholder
link, exit code 0. -/
theorem C7_missing_link_soft_success_witness :
    ∃ o, runScript env7 = ([OutRecord.success o], 0) ∧
      o.invite_link = noLinkMsg (freshId st1w) :=
  C7_missing_link_soft_success.2.2 env7
    { sub_folder_name := "public",
      recipient_emails := DEFAULT_RECIPIENT_EMAILS ++ [],
      subfolder_id := freshId st1w,
      uploaded := ["test_upload.txt"] } rfl rfl
    ⟨{ webUrl := none }, [], rfl, rfl⟩

/-- C9: under the default file list with no test_upload.txt on disk, main
synthesizes the placeholder file before upload rather than failing; when
the remaining stages succeed the file is uploaded and reported in the
files_uploaded list of the single success record, with exit code 0. -/
theorem C9_default_file_synthesized (env : Env)
    (hfiles : env.files_to_upload = ["test_upload.txt"])
    (hmissing : List.lookup "test_upload.txt" env.fs0 = none)
    (htok : env.tokenResp.ok = true)
    (gid sid : String) (st1 st2 : DriveState)
    (hg : get_or_create_folder env.flt env.createOk env.drive "root"
      BASE_FOLDER_NAME = Except.ok (gid, st1))
    (hs : get_or_create_folder env.flt env.createOk st1 gid env.subfolder =
      Except.ok (sid, st2))
    (hsess : (env.sessionResp "test_upload.txt").ok = true)
    (hchunk : acceptedStatus (env.chunkResps "test_upload.txt" 0) = true)
    (hinv : env.inviteResp.ok = true)
    (p : Permission) (rest : List Permission)
    (hperm : env.inviteResp.permissions = p :: rest) :
    List.lookup "test_upload.txt"
        (fsAfterDefault env.files_to_upload env.fs0) =
      some dummyContent.length ∧
    (upload_file (fsAfterDefault env.files_to_upload env.fs0)
      (env.sessionResp "test_upload.txt") (env.chunkResps "test_upload.txt")
      sid "test_upload.txt").2 = Except.ok () ∧
    ∃ o, runScript env = ([OutRecord.success o], 0) ∧
      o.files_uploaded = ["test_upload.txt"] := by
  have hfs' : fsAfterDefault env.files_to_upload env.fs0 =
      ("test_upload.txt", dummyContent.length) :: env.fs0 := by
    unfold fsAfterDefault
    rw [hfiles]
    simp [hmissing]
  have hlook : List.lookup "test_upload.txt"
      (fsAfterDefault env.files_to_upload env.fs0) =
      some dummyContent.length := by
    rw [hfs']
    simp [List.lookup]
  have hupl := upload_file_small_ok
    (fsAfterDefault env.files_to_upload env.fs0)
    (env.sessionResp "test_upload.txt") (env.chunkResps "test_upload.txt")
    sid "test_upload.txt" dummyContent.length hlook (by decide) (by decide)
    hsess hchunk
  have huploadAll : ∀ FS, FS = fsAfterDefault env.files_to_upload env.fs0 →
      uploadAll FS env.sessionResp env.chunkResps sid env.files_to_upload =
        Except.ok ["test_upload.txt"] := by
    intro FS hFS
    rw [hfiles]
    simp only [uploadAll]
    rw [hFS, hupl]
  have hpre : preInvite env = Except.ok
      { sub_folder_name := env.subfolder,
        recipient_emails := DEFAULT_RECIPIENT_EMAILS ++ env.new_emails,
        subfolder_id := sid, uploaded := ["test_upload.txt"] } := by
    simp [preInvite, get_access_token, htok, hg, hs, huploadAll _ rfl]
  obtain ⟨link, hlink⟩ := grant_cons_perms env.inviteResp sid p rest hinv
    hperm
  have hmain : main_fn env = Except.ok
      { base_folder := BASE_FOLDER_NAME, sub_folder := env.subfolder,
        sub_folder_id := sid, files_uploaded := ["test_upload.txt"],
        shared_with := DEFAULT_RECIPIENT_EMAILS ++ env.new_emails,
        invite_link := link } := by
    simp [main_fn, hpre, hlink]
  refine And.intro hlook (And.intro (by rw [hupl]) ?_)
  refine Exists.intro
    { base_folder := BASE_FOLDER_NAME, sub_folder := env.subfolder,
      sub_folder_id := sid, files_uploaded := ["test_upload.txt"],
      shared_with := DEFAULT_RECIPIENT_EMAILS ++ env.new_emails,
      invite_link := link } (And.intro ?_ rfl)
  simp [runScript, hmain]

/-- Witness for C9 at the concrete all-green default invocation with no
local files at all: the placeholder is synthesized, uploaded, and reported
with exit code 0. -/
theorem C9_default_file_synthesized_witness :
    List.lookup "test_upload.txt"
        (fsAfterDefault baseEnv.files_to_upload baseEnv.fs0) =
      some dummyContent.length ∧
    (upload_file (fsAfterDefault baseEnv.files_to_upload baseEnv.fs0)
      (baseEnv.sessionResp "test_upload.txt")
      (baseEnv.chunkResps "test_upload.txt")
      "folder-1" "test_upload.txt").2 = Except.ok () ∧
    ∃ o, runScript baseEnv = ([OutRecord.success o], 0) ∧
      o.files_uploaded = ["test_upload.txt"] :=
  C9_default_file_synthesized baseEnv rfl rfl rfl "folder-0" "folder-1"
    st1w st2w rfl rfl rfl rfl rfl
    { webUrl := some "https://contoso.example/link" } [] rfl
